import Mathlib

/-
  Verification of the agent loop of assistant-hub
  (src/services/assistant/agents/ResponderAgent.ts).

  The ResponderAgent class is embedded shallowly:
  - Messages, streamed chunks (deltas/choices) and tool-call requests are
    plain structures; fields that the TypeScript source obtains through a
    type cast (and which may therefore be absent at runtime) are Options.
  - The OpenAI completion provider is abstracted as a function from the
    round number (the number of fetches performed so far) to the list of
    raw stream fragments of that round; the delta merger is a parameter
    of every loop theorem.
  - uuidv4 is modelled by a counter threaded through the computation:
    each generated identifier is the current counter value and the
    counter advances by one per generated id.
  - The while loop of processSteps is driven by fuel; processSteps
    supplies maxToolCallSteps + 1 units, which is always enough because
    each continuing iteration increments steps and the guard is
    steps < maxToolCallSteps starting from steps = 0.
-/

/-- Message roles, as in the repository's Message type. -/
inductive Role where
  | system
  | user
  | assistant
  | function
  | data
  | tool
deriving DecidableEq, Repr

/-- A tool-call request as it appears on an assistant message or inside a
streamed delta.  `id` and `name` may be absent on individual fragments. -/
structure ToolCall where
  id : Option String := none
  name : Option String := none
  arguments : String := ""
deriving DecidableEq, Repr

/-- A conversation message.  `role`, `content`, `tool_calls` and
`tool_call_id` are Options because the source builds messages by
spreading a streamed delta and casting, so any of them can be absent. -/
structure Message where
  id : Nat
  thread_id : String
  role : Option Role := none
  content : Option String := none
  tool_calls : Option (List ToolCall) := none
  tool_call_id : Option String := none
deriving DecidableEq, Repr

/-- The delta part of a streamed chunk choice. -/
structure Delta where
  role : Option Role := none
  content : Option String := none
  tool_calls : Option (List ToolCall) := none
deriving DecidableEq, Repr

/-- One choice of a streamed chunk. -/
structure Choice where
  delta : Delta
  finish_reason : Option String := none
deriving DecidableEq, Repr

/-- A streamed ChatCompletionChunk.  The empty accumulator
`\x7b\x7d as ChatCompletionChunk` of processResponse is modelled as a chunk
with no choices. -/
structure Chunk where
  choices : List Choice := []
deriving DecidableEq, Repr

/-- ResponderAgent.processResponse, lines 186-190: the finalized message
is built from choices[0].delta of the merged chunk, stamped with the
round's message id and the agent's thread id.  Accessing choices[0] of a
chunk with no choices fails (in the source: a TypeError), hence Option. -/
def finalizeMessage (threadID : String) (msgId : Nat) (merged : Chunk) :
    Option Message :=
  merged.choices.head?.map fun c =>
    { id := msgId
      thread_id := threadID
      role := c.delta.role
      content := c.delta.content
      tool_calls := c.delta.tool_calls
      tool_call_id := none }

/-- ResponderAgent.processResponse, lines 159-192: the accumulated chunk
starts as the empty object, every fragment read from the stream is folded
in with the delta merger, and the finalized message is read off the first
choice of the result.  The merger itself is a parameter (it lives in
src/utils/mergeResponseObject.ts). -/
def processResponse (merge : Chunk → Chunk → Chunk) (threadID : String)
    (msgId : Nat) (fragments : List Chunk) : Option (Message × Chunk) :=
  let merged := List.foldl merge { choices := [] } fragments
  (finalizeMessage threadID msgId merged).map fun m => (m, merged)

/-- ResponderAgent.hasToolCall, lines 194-196: the merged chunk requests
tools iff choices[0].finish_reason is the string tool_calls. -/
def hasToolCall (newChunkObject : Chunk) : Bool :=
  match newChunkObject.choices.head? with
  | some ch => ch.finish_reason == some "tool_calls"
  | none => false

/-- ResponderAgent.executeTools, lines 221-237: one ToolMessage per
request, in order, each with a fresh uuid, role tool, tool_call_id the
request's id or the empty string, the canned success content, and the
agent's thread id.  Returns the messages plus the advanced uuid counter. -/
def executeTools (threadID : String) : Nat → List ToolCall →
    List Message × Nat
  | ctr, [] => ([], ctr)
  | ctr, tc :: rest =>
    let m : Message :=
      { id := ctr
        thread_id := threadID
        role := some Role.tool
        content := some "実行しました"
        tool_call_id := some (tc.id.getD "") }
    let r := executeTools threadID (ctr + 1) rest
    (m :: r.1, r.2)

/-- ResponderAgent.handleToolCalls, lines 198-204: the tool calls of the
finalized message are dispatched when its role is assistant and the
tool_calls field is present; otherwise the empty list is dispatched. -/
def handleToolCalls (threadID : String) (ctr : Nat) (newMessage : Message) :
    List Message × Nat :=
  let toolCalls :=
    if newMessage.role = some Role.assistant then newMessage.tool_calls.getD []
    else []
  executeTools threadID ctr toolCalls

/-- ResponderAgent.fetch, line 211: the request carries the tool list iff
the current step count is below the bound. -/
def fetchIncludesTools (steps maxToolCallSteps : Nat) : Bool :=
  steps < maxToolCallSteps

/-- The observable outcome of processSteps:
`messagesToSave` is the list handed to the persistence relay (via
waitUntil(saveMessages ...)), `currentMessages` the final history,
`steps` the final step counter, `fetches` records one entry per
completion request telling whether the tool list was included,
`dispatched` collects every ToolMessage produced by tool dispatch,
`finalized` collects the finalized per-round message of every round, and
`ctr` is the final uuid counter. -/
structure LoopResult where
  messagesToSave : List Message
  currentMessages : List Message
  steps : Nat
  fetches : List Bool
  dispatched : List Message
  finalized : List Message
  ctr : Nat
deriving DecidableEq, Repr

/-- The while loop of ResponderAgent.processSteps, lines 118-154, with
fuel.  Per iteration: guard steps < maxToolCallSteps; fetch (recording
whether tools were included); processResponse on the round's fragments;
push the finalized message onto messagesToSave; if the merged chunk does
not request tools, append the message to the history and break;
otherwise dispatch the tool calls, push the results onto messagesToSave
when save is set, append message and results to the history, increment
steps, and continue. -/
def runLoop (merge : Chunk → Chunk → Chunk) (provider : Nat → List Chunk)
    (threadID : String) (maxToolCallSteps : Nat) (save : Bool) :
    Nat → Nat → List Message → List Message → List Bool → List Message →
    List Message → Nat → Option LoopResult
  | 0, _, _, _, _, _, _, _ => none
  | fuel + 1, steps, cur, toSave, fetches, dispatched, finalized, ctr =>
    if steps < maxToolCallSteps then
      let withTools := fetchIncludesTools steps maxToolCallSteps
      match processResponse merge threadID ctr (provider fetches.length) with
      | none => none
      | some mc =>
        let newMessage := mc.1
        let newChunkObject := mc.2
        let toSave2 := toSave ++ [newMessage]
        let finalized2 := finalized ++ [newMessage]
        if hasToolCall newChunkObject then
          let pr := handleToolCalls threadID (ctr + 1) newMessage
          let toSave3 := if save then toSave2 ++ pr.1 else toSave2
          runLoop merge provider threadID maxToolCallSteps save
            fuel (steps + 1) (cur ++ newMessage :: pr.1) toSave3
            (fetches ++ [withTools]) (dispatched ++ pr.1) finalized2 pr.2
        else
          some
            { messagesToSave := toSave2
              currentMessages := cur ++ [newMessage]
              steps := steps
              fetches := fetches ++ [withTools]
              dispatched := dispatched
              finalized := finalized2
              ctr := ctr + 1 }
    else
      some
        { messagesToSave := toSave
          currentMessages := cur
          steps := steps
          fetches := fetches
          dispatched := dispatched
          finalized := finalized
          ctr := ctr }

/-- ResponderAgent.processSteps, lines 111-157: messagesToSave is seeded
with currentMessages[currentMessages.length - 1], then the while loop
runs (fuel maxToolCallSteps + 1 suffices) and the accumulated
messagesToSave is handed to the persistence relay. -/
def processSteps (merge : Chunk → Chunk → Chunk) (provider : Nat → List Chunk)
    (threadID : String) (maxToolCallSteps : Nat) (save : Bool)
    (currentMessages : List Message) (ctr : Nat) : Option LoopResult :=
  match currentMessages.getLast? with
  | none => none
  | some last =>
    runLoop merge provider threadID maxToolCallSteps save
      (maxToolCallSteps + 1) 0 currentMessages [last] [] [] [] ctr

/-- Failure modes of run: the empty-history precondition error thrown by
initialize (line 97), a failure of the advisory tool-catalog query
propagating out of initialize (line 101, not caught there), or a failure
while producing a round's message. -/
inductive RunError where
  | emptyHistory
  | catalogFailure
  | streamFailure
deriving DecidableEq, Repr

/-- ResponderAgent.run plus ResponderAgent.initialize, lines 81-109:
the empty-history guard runs first, then the tool-catalog query
(getToolsByPrompt, modelled as an external result of type
Except String Unit whose failure propagates, since initialize does not
catch it), then processSteps. -/
def run (merge : Chunk → Chunk → Chunk) (provider : Nat → List Chunk)
    (catalog : Except String Unit) (threadID : String)
    (maxToolCallSteps : Nat) (save : Bool) (messages : List Message)
    (ctr : Nat) : Except RunError LoopResult :=
  if messages.isEmpty then Except.error RunError.emptyHistory
  else
    match catalog with
    | Except.error _ => Except.error RunError.catalogFailure
    | Except.ok _ =>
      match processSteps merge provider threadID maxToolCallSteps save
          messages ctr with
      | none => Except.error RunError.streamFailure
      | some res => Except.ok res

/-- ResponderAgent.saveMessages, lines 239-255, with the external Message
Store append (createMessage) passed in as a fallible function.  The
single try/catch wraps the whole for-await loop: messages are stored one
by one in order; the first failure is caught (returned as the logged
error) and ends the loop; nothing propagates (the function is total).
Returns the messages successfully stored and the logged error, if any. -/
def saveMessages (createMessage : Message → Except String Unit) :
    List Message → List Message × Option String
  | [] => ([], none)
  | m :: rest =>
    match createMessage m with
    | Except.error e => ([], some e)
    | Except.ok _ =>
      let r := saveMessages createMessage rest
      (m :: r.1, r.2)

/-- Modelled from the spec: the Delta Merger (mergeResponseObjects, in
src/utils/mergeResponseObject.ts, whose source is not included under
src/), spec section 4.1: merging a tool-call piece adopts a
newly-present id and function name and concatenates the partial
arguments strings. -/
def mergeToolCall (a b : ToolCall) : ToolCall :=
  { id := a.id <|> b.id
    name := a.name <|> b.name
    arguments := a.arguments ++ b.arguments }

/-- Modelled from the spec: positional merge of tool-call piece lists
(spec section 4.1, merge by index: insert where no entry exists,
otherwise combine with mergeToolCall). -/
def mergeToolCallList : List ToolCall → List ToolCall → List ToolCall
  | [], bs => bs
  | as, [] => as
  | a :: as, b :: bs => mergeToolCall a b :: mergeToolCallList as bs

/-- Modelled from the spec: merging a delta into the accumulated delta
(spec section 4.1): present content is appended, absent content
contributes the empty string, and tool-call pieces merge by index. -/
def mergeDelta (a b : Delta) : Delta :=
  { role := a.role <|> b.role
    content :=
      match a.content, b.content with
      | none, none => none
      | x, y => some (x.getD "" ++ y.getD "")
    tool_calls :=
      match a.tool_calls, b.tool_calls with
      | none, none => none
      | x, y => some (mergeToolCallList (x.getD []) (y.getD [])) }

/-- Modelled from the spec: merging one chunk choice (spec section 4.1:
the most recently observed non-empty finish indicator wins). -/
def mergeChoice (a b : Choice) : Choice :=
  { delta := mergeDelta a.delta b.delta
    finish_reason := b.finish_reason <|> a.finish_reason }

/-- Modelled from the spec: positional merge of choice lists. -/
def mergeChoiceList : List Choice → List Choice → List Choice
  | [], bs => bs
  | as, [] => as
  | a :: as, b :: bs => mergeChoice a b :: mergeChoiceList as bs

/-- Modelled from the spec: mergeResponseObjects on whole chunks. -/
def mergeResponseObjects (a b : Chunk) : Chunk :=
  { choices := mergeChoiceList a.choices b.choices }

/-- A user message used as a one-element input history in concrete
instantiations. -/
def userMsg : Message :=
  { id := 100, thread_id := "t", role := some Role.user, content := some "hi" }

/-- A concrete tool-call request, as streamed by the provider. -/
def tcWeather : ToolCall :=
  { id := some "call-1", name := some "get_current_weather", arguments := "" }

/-- A complete streamed chunk whose finish indicator is tool_calls. -/
def chunkToolCall : Chunk :=
  { choices :=
      [{ delta := { role := some Role.assistant, tool_calls := some [tcWeather] }
         finish_reason := some "tool_calls" }] }

/-- The single choice of a complete streamed chunk that stops. -/
def stopChoice : Choice :=
  { delta := { role := some Role.assistant, content := some "It is sunny." }
    finish_reason := some "stop" }

/-- A complete streamed chunk whose finish indicator is stop. -/
def chunkStop : Chunk :=
  { choices := [stopChoice] }

/-- A provider whose every round streams one complete chunk finishing
with tool_calls. -/
def provAllToolCalls : Nat → List Chunk := fun _ => [chunkToolCall]

/-- A provider whose every round streams one complete chunk finishing
with stop. -/
def provStopFirst : Nat → List Chunk := fun _ => [chunkStop]

/-- A provider that requests a tool call on the first round and stops on
every later round. -/
def provToolThenStop : Nat → List Chunk :=
  fun r => if r = 0 then [chunkToolCall] else [chunkStop]

/-- run at the spec-modelled merger, a successful catalog query, thread
id t and uuid counter 0, projected to an Option for concrete
evaluation. -/
def runResult (provider : Nat → List Chunk) (maxToolCallSteps : Nat)
    (save : Bool) (messages : List Message) : Option LoopResult :=
  match run mergeResponseObjects provider (Except.ok ()) "t" maxToolCallSteps
      save messages 0 with
  | Except.ok r => some r
  | Except.error _ => none

/-- The message that processResponse finalizes out of a merged chunk
choice (ResponderAgent.ts lines 186-190): the choice's delta fields
stamped with the round's message id and the agent's thread id. -/
def messageOfChoice (threadID : String) (msgId : Nat) (c : Choice) :
    Message :=
  { id := msgId
    thread_id := threadID
    role := c.delta.role
    content := c.delta.content
    tool_calls := c.delta.tool_calls
    tool_call_id := none }

/-- First message of a two-element history used to refute C5. -/
def msgA : Message :=
  { id := 11, thread_id := "t", role := some Role.user,
    content := some "first" }

/-- Second (last) message of a two-element history used to refute C5. -/
def msgB : Message :=
  { id := 12, thread_id := "t", role := some Role.user,
    content := some "second" }

/-- The concrete outcome of a one-round stop run with save on: used to
witness C5. -/
def resC5 : LoopResult :=
  { messagesToSave := [userMsg, messageOfChoice "t" 0 stopChoice]
    currentMessages := [userMsg, messageOfChoice "t" 0 stopChoice]
    steps := 0
    fetches := [true]
    dispatched := []
    finalized := [messageOfChoice "t" 0 stopChoice]
    ctr := 1 }

/-- The assistant message finalized on the tool round of
provToolThenStop. -/
def asstToolMsg : Message :=
  { id := 0, thread_id := "t", role := some Role.assistant,
    tool_calls := some [tcWeather] }

/-- The ToolMessage dispatched for tcWeather with uuid counter 1. -/
def toolResultMsg : Message :=
  { id := 1, thread_id := "t", role := some Role.tool,
    content := some "実行しました", tool_call_id := some "call-1" }

/-- The assistant message finalized on the stop round of
provToolThenStop. -/
def asstStopMsg : Message :=
  { id := 2, thread_id := "t", role := some Role.assistant,
    content := some "It is sunny." }

/-- The concrete outcome of a tool round followed by a stop round with
save off: used to witness C9.  The dispatched ToolMessage appears in the
history but not in messagesToSave. -/
def resC9 : LoopResult :=
  { messagesToSave := [userMsg, asstToolMsg, asstStopMsg]
    currentMessages := [userMsg, asstToolMsg, toolResultMsg, asstStopMsg]
    steps := 1
    fetches := [true, true]
    dispatched := [toolResultMsg]
    finalized := [asstToolMsg, asstStopMsg]
    ctr := 3 }

/-- A Message Store stand-in that fails exactly on the message with
id 2. -/
def storeFailOn2 : Message → Except String Unit :=
  fun m => if m.id = 2 then Except.error "boom" else Except.ok ()

/-- A three-message sequence whose second message makes storeFailOn2
fail. -/
def msgs123 : List Message :=
  [{ id := 1, thread_id := "t" }, { id := 2, thread_id := "t" },
   { id := 3, thread_id := "t" }]

/-- C6: run called with an empty message history fails immediately with
the precondition error, for every catalog outcome and every provider: no
network-shaped call (tool-catalog query or completion request) can
influence the result, which surfaces to the caller as an immediate
failure of run. -/
theorem c6_empty_history_fails_first (merge : Chunk → Chunk → Chunk)
    (provider : Nat → List Chunk) (catalog : Except String Unit)
    (threadID : String) (maxToolCallSteps : Nat) (save : Bool) (ctr : Nat) :
    run merge provider catalog threadID maxToolCallSteps save [] ctr
      = Except.error RunError.emptyHistory := rfl

/-- C10: processResponse initializes the accumulated chunk to an empty
object, so when the provider stream closes after zero fragments the
merged chunk has no choices, the unconditional read of choices[0] has no
value, and the round fails instead of producing a message — for every
delta merger. -/
theorem c10_empty_stream_fails (merge : Chunk → Chunk → Chunk)
    (threadID : String) (msgId : Nat) :
    processResponse merge threadID msgId [] = none := rfl

/-- C7: dispatching a list of tool-call requests returns exactly one
ToolMessage per request, in the same order, each with a freshly
generated id (the i-th result takes the i-th identifier of the uuid
supply, so all ids are new and pairwise distinct), role tool,
tool_call_id equal to the originating request's id (the empty string if
absent), and thread_id copied from the agent loop. -/
theorem c7_dispatch_tool_messages (threadID : String) (ctr : Nat)
    (toolCalls : List ToolCall) :
    (executeTools threadID ctr toolCalls).1.length = toolCalls.length
    ∧ (executeTools threadID ctr toolCalls).2 = ctr + toolCalls.length
    ∧ ∀ (i : Nat) (hi : i < toolCalls.length)
        (h2 : i < (executeTools threadID ctr toolCalls).1.length),
        ((executeTools threadID ctr toolCalls).1.get ⟨i, h2⟩).role
            = some Role.tool
        ∧ ((executeTools threadID ctr toolCalls).1.get ⟨i, h2⟩).thread_id
            = threadID
        ∧ ((executeTools threadID ctr toolCalls).1.get ⟨i, h2⟩).tool_call_id
            = some ((toolCalls.get ⟨i, hi⟩).id.getD "")
        ∧ ((executeTools threadID ctr toolCalls).1.get ⟨i, h2⟩).id
            = ctr + i := by
  induction toolCalls generalizing ctr with
  | nil =>
    refine ⟨rfl, by simp [executeTools], ?_⟩
    intro i hi
    exact absurd hi (by simp)
  | cons tc rest ih =>
    obtain ⟨ih1, ih2, ih3⟩ := ih (ctr + 1)
    refine ⟨by simp [executeTools, ih1], by simp [executeTools, ih2]; omega, ?_⟩
    intro i hi h2
    match i with
    | 0 => simp [executeTools]
    | i + 1 =>
      have hi2 : i < rest.length := by simpa using hi
      have h22 : i < (executeTools threadID (ctr + 1) rest).1.length := by
        simpa [executeTools] using h2
      obtain ⟨p1, p2, p3, p4⟩ := ih3 i hi2 h22
      refine ⟨by simpa [executeTools] using p1, by simpa [executeTools] using p2,
        by simpa [executeTools] using p3, ?_⟩
      have : ((executeTools threadID ctr (tc :: rest)).1.get ⟨i + 1, h2⟩).id
          = ((executeTools threadID (ctr + 1) rest).1.get ⟨i, h22⟩).id := by
        simp [executeTools]
      rw [this, p4]
      omega

/-- C7 witness: dispatching three concrete requests yields three
ToolMessages and advances the uuid supply by three. -/
theorem c7_dispatch_witness :
    (executeTools "t" 10 [{ id := some "a" }, { id := none },
        { id := some "c" }]).1.length = 3
    ∧ (executeTools "t" 10 [{ id := some "a" }, { id := none },
        { id := some "c" }]).2 = 13 := by
  have h := c7_dispatch_tool_messages "t" 10
    [{ id := some "a" }, { id := none }, { id := some "c" }]
  exact ⟨h.1, h.2.1⟩

/-- C2 counterexample: five messages, the external store failing exactly
on the second one.  The claim says the other four are still stored; in
fact only the first one is, because the try/catch of saveMessages wraps
the whole loop and the caught failure ends the iteration. -/
theorem c2_counterexample :
    (saveMessages
        (fun m => if m.id = 2 then Except.error "boom" else Except.ok ())
        [{ id := 1, thread_id := "t" }, { id := 2, thread_id := "t" },
         { id := 3, thread_id := "t" }, { id := 4, thread_id := "t" },
         { id := 5, thread_id := "t" }]).1
      = [{ id := 1, thread_id := "t" }]
    ∧ (saveMessages
        (fun m => if m.id = 2 then Except.error "boom" else Except.ok ())
        [{ id := 1, thread_id := "t" }, { id := 2, thread_id := "t" },
         { id := 3, thread_id := "t" }, { id := 4, thread_id := "t" },
         { id := 5, thread_id := "t" }]).1
      ≠ [{ id := 1, thread_id := "t" }, { id := 3, thread_id := "t" },
         { id := 4, thread_id := "t" }, { id := 5, thread_id := "t" }] := by
  constructor
  · rfl
  · decide

/-- C2 as amended: a storage failure on any message is caught (an error
value is logged, never propagated — saveMessages is total and returns
normally), but it ends the persistence loop: exactly the longest prefix
of messages on which the store succeeds is stored, and an error is
logged iff the store fails on some message it reaches. -/
theorem c2_persistence_stops_at_failure (createMessage : Message → Except String Unit)
    (msgs : List Message) :
    (saveMessages createMessage msgs).1
        = msgs.takeWhile (fun m => (createMessage m).isOk)
    ∧ ((saveMessages createMessage msgs).2 = none
        ↔ ∀ m ∈ msgs, (createMessage m).isOk = true) := by
  induction msgs with
  | nil => exact ⟨rfl, by simp [saveMessages]⟩
  | cons m rest ih =>
    cases hcm : createMessage m with
    | error e =>
      refine ⟨?_, ?_⟩
      · simp [saveMessages, hcm, List.takeWhile, Except.isOk, Except.toBool]
      · simp only [saveMessages, hcm]
        constructor
        · intro h
          exact absurd h (by simp)
        · intro h
          have := h m (by simp)
          simp [hcm, Except.isOk, Except.toBool] at this
    | ok u =>
      refine ⟨?_, ?_⟩
      · simp [saveMessages, hcm, List.takeWhile, Except.isOk, Except.toBool,
          ih.1]
      · simp only [saveMessages, hcm]
        rw [ih.2]
        constructor
        · intro h m2 hm2
          rcases List.mem_cons.mp hm2 with h1 | h2
          · subst h1; simp [hcm, Except.isOk, Except.toBool]
          · exact h m2 h2
        · intro h m2 hm2
          exact h m2 (List.mem_cons_of_mem m hm2)

/-- A merged chunk that requests tools has a first choice, and its
finish indicator is the string tool_calls. -/
theorem hasToolCall_head (c : Chunk) (h : hasToolCall c = true) :
    ∃ ch rest, c.choices = ch :: rest ∧ ch.finish_reason = some "tool_calls"
    := by
  unfold hasToolCall at h
  match hc : c.choices with
  | [] => rw [hc] at h; simp at h
  | ch :: rest =>
    rw [hc] at h
    simp only [List.head?_cons] at h
    exact ⟨ch, rest, rfl, by simpa using h⟩

/-- One-step unfolding of the while loop: guard false, the loop exits
with the accumulated state. -/
theorem runLoop_succ_exit (merge : Chunk → Chunk → Chunk)
    (provider : Nat → List Chunk) (threadID : String) (N : Nat) (save : Bool)
    (fuel steps : Nat) (cur toSave : List Message) (fetches : List Bool)
    (dispatched finalized : List Message) (ctr : Nat)
    (hguard : ¬ steps < N) :
    runLoop merge provider threadID N save (fuel + 1) steps cur toSave
        fetches dispatched finalized ctr
      = some
          { messagesToSave := toSave
            currentMessages := cur
            steps := steps
            fetches := fetches
            dispatched := dispatched
            finalized := finalized
            ctr := ctr } := by
  simp only [runLoop]
  rw [if_neg hguard]

/-- One-step unfolding of the while loop: guard true but the round's
stream yields no finalized message, so the round fails. -/
theorem runLoop_succ_none (merge : Chunk → Chunk → Chunk)
    (provider : Nat → List Chunk) (threadID : String) (N : Nat) (save : Bool)
    (fuel steps : Nat) (cur toSave : List Message) (fetches : List Bool)
    (dispatched finalized : List Message) (ctr : Nat)
    (hguard : steps < N)
    (hpr : processResponse merge threadID ctr (provider fetches.length)
      = none) :
    runLoop merge provider threadID N save (fuel + 1) steps cur toSave
        fetches dispatched finalized ctr = none := by
  simp only [runLoop]
  rw [if_pos hguard, hpr]

/-- One-step unfolding of the while loop: a round whose merged chunk
does not request tools appends the finalized message to the history and
breaks. -/
theorem runLoop_succ_stop (merge : Chunk → Chunk → Chunk)
    (provider : Nat → List Chunk) (threadID : String) (N : Nat) (save : Bool)
    (fuel steps : Nat) (cur toSave : List Message) (fetches : List Bool)
    (dispatched finalized : List Message) (ctr : Nat)
    (msgr : Message) (merged : Chunk)
    (hguard : steps < N)
    (hpr : processResponse merge threadID ctr (provider fetches.length)
      = some (msgr, merged))
    (hstop : hasToolCall merged = false) :
    runLoop merge provider threadID N save (fuel + 1) steps cur toSave
        fetches dispatched finalized ctr
      = some
          { messagesToSave := toSave ++ [msgr]
            currentMessages := cur ++ [msgr]
            steps := steps
            fetches := fetches ++ [fetchIncludesTools steps N]
            dispatched := dispatched
            finalized := finalized ++ [msgr]
            ctr := ctr + 1 } := by
  simp only [runLoop]
  rw [if_pos hguard, hpr]
  simp [hstop]

/-- One-step unfolding of the while loop: a round whose merged chunk
requests tools dispatches them, extends every accumulator and
continues with the incremented step counter. -/
theorem runLoop_succ_tool (merge : Chunk → Chunk → Chunk)
    (provider : Nat → List Chunk) (threadID : String) (N : Nat) (save : Bool)
    (fuel steps : Nat) (cur toSave : List Message) (fetches : List Bool)
    (dispatched finalized : List Message) (ctr : Nat)
    (msgr : Message) (merged : Chunk)
    (hguard : steps < N)
    (hpr : processResponse merge threadID ctr (provider fetches.length)
      = some (msgr, merged))
    (htool : hasToolCall merged = true) :
    runLoop merge provider threadID N save (fuel + 1) steps cur toSave
        fetches dispatched finalized ctr
      = runLoop merge provider threadID N save fuel (steps + 1)
          (cur ++ msgr :: (handleToolCalls threadID (ctr + 1) msgr).1)
          (if save then (toSave ++ [msgr])
              ++ (handleToolCalls threadID (ctr + 1) msgr).1
           else toSave ++ [msgr])
          (fetches ++ [fetchIncludesTools steps N])
          (dispatched ++ (handleToolCalls threadID (ctr + 1) msgr).1)
          (finalized ++ [msgr])
          (handleToolCalls threadID (ctr + 1) msgr).2 := by
  simp only [runLoop]
  rw [if_pos hguard, hpr]
  simp [htool]

/-- When every merged provider response requests tools, the while loop
runs until the step counter reaches the bound: every completion request
it issues includes the tool list, and no tool-less request is ever
issued. -/
theorem runLoop_all_toolcalls (merge : Chunk → Chunk → Chunk)
    (provider : Nat → List Chunk) (threadID : String) (N : Nat) (save : Bool)
    (htc : ∀ r,
      hasToolCall (List.foldl merge { choices := [] } (provider r)) = true) :
    ∀ (fuel steps : Nat) (cur toSave : List Message) (fetches : List Bool)
      (dispatched finalized : List Message) (ctr : Nat),
      N - steps < fuel →
      ∃ res,
        runLoop merge provider threadID N save fuel steps cur toSave fetches
            dispatched finalized ctr = some res
        ∧ res.fetches = fetches ++ List.replicate (N - steps) true
        ∧ res.steps = max steps N := by
  intro fuel
  induction fuel with
  | zero => intro steps _ _ _ _ _ _ hf; omega
  | succ fuel ih =>
    intro steps cur toSave fetches dispatched finalized ctr hf
    by_cases hguard : steps < N
    · have hh := htc fetches.length
      obtain ⟨ch, rest, hch, _⟩ := hasToolCall_head _ hh
      have hpr : processResponse merge threadID ctr (provider fetches.length)
          = some
              ({ id := ctr, thread_id := threadID, role := ch.delta.role,
                 content := ch.delta.content,
                 tool_calls := ch.delta.tool_calls, tool_call_id := none },
               List.foldl merge { choices := [] } (provider fetches.length))
          := by
        simp [processResponse, finalizeMessage, hch]
      have htools : fetchIncludesTools steps N = true := by
        simpa [fetchIncludesTools] using hguard
      rw [runLoop_succ_tool merge provider threadID N save fuel steps cur
        toSave fetches dispatched finalized ctr _ _ hguard hpr hh]
      obtain ⟨res, h1, h2, h3⟩ := ih (steps + 1) _ _
        (fetches ++ [fetchIncludesTools steps N]) _ _ _ (by omega)
      refine ⟨res, h1, ?_, ?_⟩
      · rw [h2, htools]
        have hrep : N - steps = (N - (steps + 1)) + 1 := by omega
        rw [hrep, List.replicate_succ]
        simp
      · rw [h3]; omega
    · rw [runLoop_succ_exit merge provider threadID N save fuel steps cur
        toSave fetches dispatched finalized ctr hguard]
      refine ⟨_, rfl, ?_, ?_⟩
      · have : N - steps = 0 := by omega
        simp [this]
      · simp only []
        omega

/-- C1 as amended: for every run with max_steps = N, a successful
tool-catalog query and a completion provider whose every merged
response carries finish indicator tool_calls, the agent loop performs
exactly N rounds, each of whose requests includes the tool list, and
then terminates; no additional tool-less round is performed and no
(N+1)-th tool-call round is entered. -/
theorem c1_tool_rounds (merge : Chunk → Chunk → Chunk)
    (provider : Nat → List Chunk) (threadID : String) (N : Nat) (save : Bool)
    (messages : List Message) (ctr : Nat)
    (hne : messages ≠ [])
    (htc : ∀ r,
      hasToolCall (List.foldl merge { choices := [] } (provider r)) = true) :
    ∃ res,
      run merge provider (Except.ok ()) threadID N save messages ctr
        = Except.ok res
      ∧ res.fetches = List.replicate N true
      ∧ res.steps = N := by
  match hlast : messages.getLast? with
  | none => exact absurd (List.getLast?_eq_none_iff.mp hlast) hne
  | some last =>
    obtain ⟨res, h1, h2, h3⟩ := runLoop_all_toolcalls merge provider threadID
      N save htc (N + 1) 0 messages [last] [] [] [] ctr (by omega)
    have hie : messages.isEmpty = false := by
      simp [List.isEmpty_eq_false, hne]
    refine ⟨res, ?_, by simpa using h2, by simpa using h3⟩
    simp only [run, processSteps, hie, hlast, h1, Bool.false_eq_true,
      if_false]

/-- C1 counterexample: max_steps = 1 with a provider that always
requests tools.  The claim predicts one tool-offering round followed by
a final tool-less round (fetch trace [true, false]); the code performs
the single tool round and exits without ever issuing a tool-less
request (fetch trace [true]), because the while guard of processSteps
and the tool-inclusion test of fetch use the same condition
steps < maxToolCallSteps. -/
theorem c1_counterexample :
    (runResult provAllToolCalls 1 true [userMsg]).map LoopResult.fetches
      = some [true]
    ∧ (some [true] : Option (List Bool)) ≠ some [true, false] := by
  constructor
  · rfl
  · decide

/-- C1 witness: a concrete two-step run hitting the bound with the
always-tool_calls provider. -/
theorem c1_witness :
    ∃ res,
      run mergeResponseObjects provAllToolCalls (Except.ok ()) "t" 2 true
        [userMsg] 0 = Except.ok res
      ∧ res.fetches = List.replicate 2 true
      ∧ res.steps = 2 :=
  c1_tool_rounds mergeResponseObjects provAllToolCalls "t" 2 true [userMsg] 0
    (by decide)
    (fun r =>
      show hasToolCall (List.foldl mergeResponseObjects { choices := [] }
          [chunkToolCall]) = true from by decide)

/-- C3 as amended: when run is invoked with max_steps = 0 and a
non-empty history, the loop performs no round at all — the while guard
steps < maxToolCallSteps fails immediately, so no completion request is
issued (the fetch trace is empty), the history is unchanged, and only
the last message of the history is handed to the persistence relay. -/
theorem c3_zero_steps_no_round (merge : Chunk → Chunk → Chunk)
    (provider : Nat → List Chunk) (threadID : String) (save : Bool)
    (messages : List Message) (ctr : Nat) (last : Message)
    (hlast : messages.getLast? = some last) :
    run merge provider (Except.ok ()) threadID 0 save messages ctr
      = Except.ok
          { messagesToSave := [last]
            currentMessages := messages
            steps := 0
            fetches := []
            dispatched := []
            finalized := []
            ctr := ctr } := by
  have hne : messages ≠ [] := by
    intro h
    subst h
    simp at hlast
  have hie : messages.isEmpty = false := by
    simp [List.isEmpty_eq_false, hne]
  have h1 := runLoop_succ_exit merge provider threadID 0 save 0 0 messages
    [last] [] [] [] ctr (by omega)
  simp only [run, processSteps, hie, hlast, Bool.false_eq_true, if_false,
    Nat.zero_add, h1]

/-- C3 counterexample: max_steps = 0 with a non-empty history.  The
claim predicts a first round whose request omits the tool list (fetch
trace [false]); the code issues no completion request at all (fetch
trace []). -/
theorem c3_counterexample :
    (runResult provStopFirst 0 true [userMsg]).map LoopResult.fetches
      = some []
    ∧ (some ([] : List Bool)) ≠ some [false] := by
  constructor
  · rfl
  · decide

/-- C3 witness: the amended statement evaluated on a concrete
one-message history. -/
theorem c3_witness :
    run mergeResponseObjects provStopFirst (Except.ok ()) "t" 0 true
        [userMsg] 0
      = Except.ok
          { messagesToSave := [userMsg]
            currentMessages := [userMsg]
            steps := 0
            fetches := []
            dispatched := []
            finalized := []
            ctr := 0 } :=
  c3_zero_steps_no_round mergeResponseObjects provStopFirst "t" true
    [userMsg] 0 userMsg rfl

/-- C4 as amended: with a non-empty history, a failure of the advisory
tool-suggestion step (the Tool Catalog query of initialize) aborts the
whole run before any completion round: initialize does not catch the
error, so run fails and the failure is visible to the caller. -/
theorem c4_catalog_failure_aborts (merge : Chunk → Chunk → Chunk)
    (provider : Nat → List Chunk) (threadID : String)
    (maxToolCallSteps : Nat) (save : Bool) (messages : List Message)
    (ctr : Nat) (e : String)
    (hne : messages ≠ []) :
    run merge provider (Except.error e) threadID maxToolCallSteps save
        messages ctr
      = Except.error RunError.catalogFailure := by
  have hie : messages.isEmpty = false := by
    simp [List.isEmpty_eq_false, hne]
  simp only [run, hie, Bool.false_eq_true, if_false]

/-- C4 counterexample: with a one-message history and a failing catalog
query, run fails with the catalog error — the failure is not invisible
to the caller, contradicting the claim that the round proceeds. -/
theorem c4_counterexample :
    run mergeResponseObjects provStopFirst (Except.error "catalog down")
        "t" 5 true [userMsg] 0
      = Except.error RunError.catalogFailure
    ∧ (run mergeResponseObjects provStopFirst (Except.error "catalog down")
        "t" 5 true [userMsg] 0).isOk = false := ⟨rfl, rfl⟩

/-- C4 witness: the amended statement evaluated on a concrete run. -/
theorem c4_witness :
    run mergeResponseObjects provToolThenStop (Except.error "down") "t" 3
        true [userMsg] 7
      = Except.error RunError.catalogFailure :=
  c4_catalog_failure_aborts mergeResponseObjects provToolThenStop "t" 3 true
    [userMsg] 7 "down" (by decide)

/-- C8 as amended: whenever max_steps is at least 1 and the first merged
provider response carries a finish indicator other than tool_calls, the
loop performs exactly one round (a single fetch, with tools included),
appends exactly one message to the history, dispatches zero tool calls,
and exits with the step counter still at 0.  With max_steps = 0 the loop
instead performs zero rounds (see the counterexample). -/
theorem c8_stop_single_round (merge : Chunk → Chunk → Chunk)
    (provider : Nat → List Chunk) (threadID : String) (N : Nat) (save : Bool)
    (messages : List Message) (ctr : Nat) (last : Message) (ch : Choice)
    (rest : List Choice)
    (hN : 1 ≤ N)
    (hlast : messages.getLast? = some last)
    (hch : (List.foldl merge { choices := [] } (provider 0)).choices
      = ch :: rest)
    (hfin : ch.finish_reason ≠ some "tool_calls") :
    run merge provider (Except.ok ()) threadID N save messages ctr
      = Except.ok
          { messagesToSave := [last, messageOfChoice threadID ctr ch]
            currentMessages := messages ++ [messageOfChoice threadID ctr ch]
            steps := 0
            fetches := [true]
            dispatched := []
            finalized := [messageOfChoice threadID ctr ch]
            ctr := ctr + 1 } := by
  have hne : messages ≠ [] := by
    intro h
    subst h
    simp at hlast
  have hie : messages.isEmpty = false := by
    simp [List.isEmpty_eq_false, hne]
  have hpr : processResponse merge threadID ctr (provider 0)
      = some (messageOfChoice threadID ctr ch,
              List.foldl merge { choices := [] } (provider 0)) := by
    simp [processResponse, finalizeMessage, hch, messageOfChoice]
  have hstop : hasToolCall
      (List.foldl merge { choices := [] } (provider 0)) = false := by
    simp only [hasToolCall, hch, List.head?_cons]
    exact beq_eq_false_iff_ne.mpr hfin
  have htools : fetchIncludesTools 0 N = true := by
    simpa [fetchIncludesTools] using hN
  have h1 := runLoop_succ_stop merge provider threadID N save N 0 messages
    [last] [] [] [] ctr (messageOfChoice threadID ctr ch)
    (List.foldl merge { choices := [] } (provider 0)) (by omega) hpr hstop
  rw [htools] at h1
  simp only [run, processSteps, hie, hlast, Bool.false_eq_true, if_false,
    h1]
  simp

/-- C8 counterexample: the claim asserts the single-round behavior holds
regardless of the value of max_steps, but with max_steps = 0 and a
provider whose first merged response stops, the loop performs zero
rounds (an empty fetch trace), not one. -/
theorem c8_counterexample :
    (runResult provStopFirst 0 true [userMsg]).map
        (fun r => r.fetches.length) = some 0
    ∧ (some 0 : Option Nat) ≠ some 1 := by
  constructor
  · rfl
  · decide

/-- C8 witness: a concrete stop-first run with max_steps = 3. -/
theorem c8_witness :
    run mergeResponseObjects provStopFirst (Except.ok ()) "t" 3 true
        [userMsg] 0
      = Except.ok
          { messagesToSave := [userMsg, messageOfChoice "t" 0 stopChoice]
            currentMessages := [userMsg] ++ [messageOfChoice "t" 0 stopChoice]
            steps := 0
            fetches := [true]
            dispatched := []
            finalized := [messageOfChoice "t" 0 stopChoice]
            ctr := 1 } :=
  c8_stop_single_round mergeResponseObjects provStopFirst "t" 3 true
    [userMsg] 0 userMsg stopChoice [] (by omega) rfl rfl (by decide)

/-- Invariant of the while loop when the save flag is on: the final
messagesToSave and the final history extend their initial values by one
and the same suffix — exactly the messages appended to the history
during the run are also handed to the persistence relay. -/
theorem runLoop_save_appends (merge : Chunk → Chunk → Chunk)
    (provider : Nat → List Chunk) (threadID : String) (N : Nat) :
    ∀ (fuel steps : Nat) (cur toSave : List Message) (fetches : List Bool)
      (dispatched finalized : List Message) (ctr : Nat) (res : LoopResult),
      runLoop merge provider threadID N true fuel steps cur toSave fetches
          dispatched finalized ctr = some res →
      ∃ d, res.messagesToSave = toSave ++ d
        ∧ res.currentMessages = cur ++ d := by
  intro fuel
  induction fuel with
  | zero =>
    intro steps cur toSave fetches dispatched finalized ctr res h
    simp [runLoop] at h
  | succ fuel ih =>
    intro steps cur toSave fetches dispatched finalized ctr res h
    by_cases hguard : steps < N
    · cases hpr : processResponse merge threadID ctr (provider fetches.length)
        with
      | none =>
        rw [runLoop_succ_none merge provider threadID N true fuel steps cur
          toSave fetches dispatched finalized ctr hguard hpr] at h
        exact absurd h (by simp)
      | some mc =>
        obtain ⟨msgr, merged⟩ := mc
        by_cases htool : hasToolCall merged = true
        · rw [runLoop_succ_tool merge provider threadID N true fuel steps cur
            toSave fetches dispatched finalized ctr msgr merged hguard hpr
            htool] at h
          simp only [if_pos] at h
          obtain ⟨d0, h1, h2⟩ := ih _ _ _ _ _ _ _ _ h
          refine ⟨msgr :: ((handleToolCalls threadID (ctr + 1) msgr).1 ++ d0),
            ?_, ?_⟩
          · rw [h1]; simp
          · rw [h2]; simp
        · have hstop : hasToolCall merged = false := by
            simpa using htool
          rw [runLoop_succ_stop merge provider threadID N true fuel steps cur
            toSave fetches dispatched finalized ctr msgr merged hguard hpr
            hstop] at h
          obtain rfl := Option.some.inj h
          exact ⟨[msgr], by simp, by simp⟩
    · rw [runLoop_succ_exit merge provider threadID N true fuel steps cur
        toSave fetches dispatched finalized ctr hguard] at h
      obtain rfl := Option.some.inj h
      exact ⟨[], by simp, by simp⟩

/-- C5 as amended: for every completed run with the save flag on (the
default), the sequence handed to the persistence relay (without being
awaited) is the LAST message of the original caller-supplied history —
not the first — followed by exactly the messages produced and appended
to the history during the run (every assistant and tool message). -/
theorem c5_relay_last_plus_produced (merge : Chunk → Chunk → Chunk)
    (provider : Nat → List Chunk) (threadID : String) (N : Nat)
    (messages : List Message) (ctr : Nat) (res : LoopResult) (last : Message)
    (hlast : messages.getLast? = some last)
    (hrun : run merge provider (Except.ok ()) threadID N true messages ctr
      = Except.ok res) :
    ∃ d, res.messagesToSave = last :: d
      ∧ res.currentMessages = messages ++ d := by
  have hne : messages ≠ [] := by
    intro h
    subst h
    simp at hlast
  have hie : messages.isEmpty = false := by
    simp [List.isEmpty_eq_false, hne]
  simp only [run, processSteps, hie, hlast, Bool.false_eq_true, if_false]
    at hrun
  cases hloop : runLoop merge provider threadID N true (N + 1) 0 messages
      [last] [] [] [] ctr with
  | none =>
    rw [hloop] at hrun
    simp at hrun
  | some r =>
    rw [hloop] at hrun
    simp only [] at hrun
    obtain rfl := Except.ok.inj hrun
    obtain ⟨d, h1, h2⟩ := runLoop_save_appends merge provider threadID N
      (N + 1) 0 messages [last] [] [] [] ctr r hloop
    exact ⟨d, by simpa using h1, h2⟩

/-- C5 counterexample: a two-message history.  The first element of the
sequence handed to the persistence relay is the last message of the
history (msgB), not the very first (msgA) as the claim states. -/
theorem c5_counterexample :
    (runResult provStopFirst 5 true [msgA, msgB]).map
        (fun r => r.messagesToSave.head?) = some (some msgB)
    ∧ some (some msgB) ≠ some (some msgA) := by
  constructor
  · rfl
  · decide

/-- C5 witness: the amended statement evaluated on a concrete one-round
run with save on. -/
theorem c5_witness :
    ∃ d, resC5.messagesToSave = userMsg :: d
      ∧ resC5.currentMessages = [userMsg] ++ d :=
  c5_relay_last_plus_produced mergeResponseObjects provStopFirst "t" 5
    [userMsg] 0 resC5 userMsg rfl rfl

/-- Invariant of the while loop when the save flag is off: the final
messagesToSave extends its initial value by exactly the finalized
per-round messages produced during the run — dispatched ToolMessages
are not added. -/
theorem runLoop_nosave_appends (merge : Chunk → Chunk → Chunk)
    (provider : Nat → List Chunk) (threadID : String) (N : Nat) :
    ∀ (fuel steps : Nat) (cur toSave : List Message) (fetches : List Bool)
      (dispatched finalized : List Message) (ctr : Nat) (res : LoopResult),
      runLoop merge provider threadID N false fuel steps cur toSave fetches
          dispatched finalized ctr = some res →
      ∃ d, res.messagesToSave = toSave ++ d
        ∧ res.finalized = finalized ++ d := by
  intro fuel
  induction fuel with
  | zero =>
    intro steps cur toSave fetches dispatched finalized ctr res h
    simp [runLoop] at h
  | succ fuel ih =>
    intro steps cur toSave fetches dispatched finalized ctr res h
    by_cases hguard : steps < N
    · cases hpr : processResponse merge threadID ctr (provider fetches.length)
        with
      | none =>
        rw [runLoop_succ_none merge provider threadID N false fuel steps cur
          toSave fetches dispatched finalized ctr hguard hpr] at h
        exact absurd h (by simp)
      | some mc =>
        obtain ⟨msgr, merged⟩ := mc
        by_cases htool : hasToolCall merged = true
        · rw [runLoop_succ_tool merge provider threadID N false fuel steps cur
            toSave fetches dispatched finalized ctr msgr merged hguard hpr
            htool] at h
          simp only [Bool.false_eq_true, if_false] at h
          obtain ⟨d0, h1, h2⟩ := ih _ _ _ _ _ _ _ _ h
          refine ⟨msgr :: d0, ?_, ?_⟩
          · rw [h1]; simp
          · rw [h2]; simp
        · have hstop : hasToolCall merged = false := by
            simpa using htool
          rw [runLoop_succ_stop merge provider threadID N false fuel steps cur
            toSave fetches dispatched finalized ctr msgr merged hguard hpr
            hstop] at h
          obtain rfl := Option.some.inj h
          exact ⟨[msgr], by simp, by simp⟩
    · rw [runLoop_succ_exit merge provider threadID N false fuel steps cur
        toSave fetches dispatched finalized ctr hguard] at h
      obtain rfl := Option.some.inj h
      exact ⟨[], by simp, by simp⟩

/-- C9: turning the save flag off does not disable persistence — every
completed run still hands the relay a non-empty sequence, namely the
last message of the input history followed by exactly the finalized
per-round (assistant) messages; the dispatched ToolMessages are the only
messages the flag removes from the saved set (compare the save-on
characterization of C5). -/
theorem c9_nosave_persists_finalized (merge : Chunk → Chunk → Chunk)
    (provider : Nat → List Chunk) (threadID : String) (N : Nat)
    (messages : List Message) (ctr : Nat) (res : LoopResult) (last : Message)
    (hlast : messages.getLast? = some last)
    (hrun : run merge provider (Except.ok ()) threadID N false messages ctr
      = Except.ok res) :
    res.messagesToSave = last :: res.finalized := by
  have hne : messages ≠ [] := by
    intro h
    subst h
    simp at hlast
  have hie : messages.isEmpty = false := by
    simp [List.isEmpty_eq_false, hne]
  simp only [run, processSteps, hie, hlast, Bool.false_eq_true, if_false]
    at hrun
  cases hloop : runLoop merge provider threadID N false (N + 1) 0 messages
      [last] [] [] [] ctr with
  | none =>
    rw [hloop] at hrun
    simp at hrun
  | some r =>
    rw [hloop] at hrun
    simp only [] at hrun
    obtain rfl := Except.ok.inj hrun
    obtain ⟨d, h1, h2⟩ := runLoop_nosave_appends merge provider threadID N
      (N + 1) 0 messages [last] [] [] [] ctr r hloop
    rw [h1, h2]
    simp

/-- C9 witness: a concrete run with save off, one tool round and one
stop round: the relay receives the last input message plus the two
finalized assistant messages, and not the dispatched ToolMessage. -/
theorem c9_witness :
    resC9.messagesToSave = userMsg :: resC9.finalized :=
  c9_nosave_persists_finalized mergeResponseObjects provToolThenStop "t" 5
    [userMsg] 0 resC9 userMsg rfl rfl

/-- C2 witness: the amended prefix characterization evaluated on the
concrete three-message sequence whose second store call fails — the
stored list is the one-element prefix before the failure. -/
theorem c2_witness :
    (saveMessages storeFailOn2 msgs123).1
      = msgs123.takeWhile (fun m => (storeFailOn2 m).isOk) :=
  (c2_persistence_stops_at_failure storeFailOn2 msgs123).1
